import Mathlib

/-!
Shallow embedding of the routing and reliability engine of the redis-clustr
client (src/redisClustr.js), together with theorems settling the claims
about its specification.  Keys, reply messages and error texts are embedded
as `List Char`; machine integers are `Nat`/`Int`.
-/

set_option maxRecDepth 8000

namespace RedisClustr

/-- Models the JavaScript expression `str.split(sep)` over a list of
characters: splits at every occurrence of `sep`, keeping empty segments.
Used by `commandCallback` (redisClustr.js lines 313-314) to parse
redirect targets. -/
def jsSplit (sep : Char) : List Char → List (List Char)
  | [] => [[]]
  | c :: cs =>
    match jsSplit sep cs with
    | [] => [[]]
    | r :: rs => if c = sep then [] :: r :: rs else (c :: r) :: rs

/-- Models the JavaScript expression `str.indexOf(ch)`: index of the first
occurrence of `ch`, or -1 when absent.  Used by `selectClient`
(redisClustr.js lines 213-216) for hash-tag scanning. -/
def jsIndexOf (c : Char) : List Char → Int
  | [] => -1
  | x :: xs =>
    if x = c then 0
    else if jsIndexOf c xs = -1 then -1 else jsIndexOf c xs + 1

/-- Modelled from the spec: the `crc16-xmodem` module required at
redisClustr.js line 2 is not among the provided sources; the spec fixes the
hash as CRC-16/XMODEM (polynomial x^16 + x^12 + x^5 + 1, i.e. 0x1021,
initial value 0, no reflection, no final xor).  One left-shift step of the
16-bit register. -/
def crc16Shift (c : Nat) : Nat :=
  if c &&& 32768 ≠ 0 then ((c <<< 1) ^^^ 4129) % 65536 else (c <<< 1) % 65536

/-- Modelled from the spec: CRC-16/XMODEM absorption of one byte into the
running register. -/
def crc16Byte (c b : Nat) : Nat := crc16Shift^[8] (c ^^^ ((b % 256) <<< 8))

/-- Modelled from the spec: CRC-16/XMODEM over the bytes of a key. -/
def crc16 (s : List Char) : Nat := s.foldl (fun c ch => crc16Byte c ch.toNat) 0

/-- Models the hash-tag extraction of `selectClient` (redisClustr.js lines
213-222): `openKey` is the index of the first opening brace; when present,
`tmpKey` is the text after it and `closeKey` the index of the first closing
brace inside `tmpKey`; the routing key becomes the segment before that
closing brace only when `closeKey > 0` (closing brace present and segment
nonempty), otherwise the whole key is kept. -/
def hashTagKey (key : List Char) : List Char :=
  let openKey := jsIndexOf '\x7b' key
  if openKey = -1 then key
  else
    let tmpKey := key.drop (openKey + 1).toNat
    let closeKey := jsIndexOf '\x7d' tmpKey
    if 0 < closeKey then tmpKey.take closeKey.toNat else key

/-- Models `var slot = crc(key) % 16384` (redisClustr.js line 224). -/
def keySlot (key : List Char) : Nat := crc16 (hashTagKey key) % 16384

/-- Redirect action of the `commandCallback` wrapper on a MOVED or ASK
reply: whether a slot-map refresh is triggered fire-and-forget
(redisClustr.js line 310), whether the single-shot asking directive is sent
first (line 316), and the host and port of the pool client that the command
is re-issued to (lines 313-317, `getClient(saddr[1], saddr[0])`). -/
structure RedirAction where
  refreshSlots : Bool
  sendAsking : Bool
  host : List Char
  port : List Char
  deriving DecidableEq

/-- Models redisClustr.js lines 313-314: `addr = err.message.split(' ')[2]`
then `saddr = addr.split(':')`; returns `(saddr[0], saddr[1])`, the host and
port passed to `getClient(saddr[1], saddr[0])`. -/
def redirectTarget (msg : List Char) : List Char × List Char :=
  let addr := (jsSplit ' ' msg).getD 2 []
  let saddr := jsSplit ':' addr
  (saddr.getD 0 [], saddr.getD 1 [])

/-- Models redisClustr.js lines 304-318: `ask` holds when the message starts
with the four characters of "ASK ", `moved` when `ask` failed and it starts
with the six characters of "MOVED "; on either, the command is re-issued to
the parsed target, a slot refresh being triggered only for MOVED and the
asking directive being sent only for ASK. -/
def movedAskAction (msg : List Char) : Option RedirAction :=
  if msg.take 4 = "ASK ".data then
    some ⟨false, true, (redirectTarget msg).1, (redirectTarget msg).2⟩
  else if msg.take 6 = "MOVED ".data then
    some ⟨true, false, (redirectTarget msg).1, (redirectTarget msg).2⟩
  else none

/-- Models the backoff of redisClustr.js line 326:
`Math.pow(2, 16 - Math.max(retries, 9)) * 10`, where `retries` has already
been decremented by the `retries--` of line 302, so the argument is the
number of attempts remaining. -/
def backoffDelay (retries : Nat) : Nat := 2 ^ (16 - max retries 9) * 10

/-- A reply observed by the `commandCallback` wrapper: success, or an error
carrying a message (empty list models a missing/empty `err.message`) and an
optional `err.code`. -/
inductive Reply where
  | ok
  | err (msg : List Char) (code : Option (List Char))
  deriving DecidableEq

/-- What the wrapper does with one reply: re-issue the command to some
client (after an optional backoff sleep of the given milliseconds), or
surface the reply to the caller's callback. -/
inductive StepAction where
  | reissue (delay : Option Nat)
  | surface
  deriving DecidableEq

/-- Models one activation of the callback wrapper installed by
`commandCallback` (redisClustr.js lines 301-332).  The guard mirrors
`err && err.message && retries--`: the budget is consumed (post-decrement)
exactly when an error with a nonempty message arrives while `retries` is
nonzero; MOVED/ASK re-issue immediately, TRYAGAIN or code CLUSTERDOWN
re-issue after the backoff, anything else surfaces. -/
def classifyStep (retries : Nat) (r : Reply) : StepAction × Nat :=
  match r with
  | .ok => (.surface, retries)
  | .err msg code =>
    if msg ≠ [] ∧ retries ≠ 0 then
      let retries2 := retries - 1
      match movedAskAction msg with
      | some _ => (.reissue none, retries2)
      | none =>
        if msg.take 8 = "TRYAGAIN".data ∨ code = some "CLUSTERDOWN".data then
          (.reissue (some (backoffDelay retries2)), retries2)
        else (.surface, retries2)
    else (.surface, retries)

/-- Runs the wrapper over a sequence of replies to the successive
invocations of the underlying client, starting from the given budget:
returns the number of re-issues performed and the reply surfaced to the
caller (none when every listed reply caused a re-issue). -/
def runReplies : Nat → List Reply → Nat × Option Reply
  | _, [] => (0, none)
  | retries, r :: rest =>
    match classifyStep retries r with
    | (.surface, _) => (0, some r)
    | (.reissue _, retries2) =>
      let t := runReplies retries2 rest
      (t.1 + 1, t.2)

/-- Number of invocations of the underlying single-node client for one
command execution: the initial dispatch of `doCommand`
(redisClustr.js line 290) plus the re-issues performed by the wrapper,
whose budget starts at `var retries = 16` (line 299). -/
def invocations (replies : List Reply) : Nat := 1 + (runReplies 16 replies).1

/-- The configuration fields read by `getSlots` (redisClustr.js lines
114-126): `maxQueueLength` with 0 modelling the absent/falsy value, and
`queueShift` with `none` modelling the absent value. -/
structure SlotConfig where
  maxQueueLength : Nat
  queueShift : Option Bool

/-- Error text of redisClustr.js line 117. -/
def maxSlotQueueErr : List Char := "max slot queue length reached".data

/-- Outcome of pushing one callback onto the pending-refresh queue:
accepted, or the eldest queued callback evicted with the overflow error, or
the newcomer itself rejected with it. -/
inductive PushOutcome (α : Type) where
  | pushed
  | evicted (eldest : α) (errMsg : List Char)
  | rejected (errMsg : List Char)
  deriving DecidableEq

/-- Models redisClustr.js lines 115-127: the overflow branch fires only
when `config.maxQueueLength` is truthy and equal to the current queue
length; `queueShift !== false` shifts the eldest off (giving it the
overflow error) and still pushes the newcomer, while `queueShift === false`
returns the error to the newcomer without pushing it. -/
def slotQueuePush {α : Type} (cfg : SlotConfig) (q : List α) (cb : α) :
    List α × PushOutcome α :=
  if cfg.maxQueueLength ≠ 0 ∧ cfg.maxQueueLength = q.length then
    if cfg.queueShift ≠ some false then
      (q.drop 1 ++ [cb], .evicted (q.headD cb) maxSlotQueueErr)
    else (q, .rejected maxSlotQueueErr)
  else (q ++ [cb], .pushed)

/-- An event observed by the `getSlots` coalescing machinery: a refresh
request (with an optional callback, since `getSlots()` may be called with
none), or the completion of the running refresh with a result. -/
inductive GEvent (α ρ : Type) where
  | request (cb : Option α)
  | complete (res : ρ)

/-- The coalescing state of `getSlots`: `slotQ` models `self._slotQ`
(`none` for the falsy absent/false value, `some q` for a live queue, whose
presence is what `alreadyRunning` tests at line 113), and `inFlight` counts
refreshes currently running. -/
structure GState (α : Type) where
  slotQ : Option (List α)
  inFlight : Nat

/-- Models one `getSlots` event (redisClustr.js lines 110-136).  A request
creates the queue and starts a refresh only when none is running
(`if (alreadyRunning) return;`), enqueueing its callback through the
overflow policy either way; a completion models `runCbs`: every queued
callback receives the same result, the queue is discarded
(`self._slotQ = false`) and the refresh ends.  The returned list is the
(callback, result) deliveries performed. -/
def getSlotsStep {α ρ : Type} (cfg : SlotConfig) (s : GState α) (e : GEvent α ρ) :
    GState α × List (α × ρ) :=
  match e with
  | .request cb =>
    let alreadyRunning := s.slotQ.isSome
    let q0 := s.slotQ.getD []
    let q1 := match cb with
      | none => q0
      | some c => (slotQueuePush cfg q0 c).1
    (⟨some q1, if alreadyRunning then s.inFlight else s.inFlight + 1⟩, [])
  | .complete res =>
    match s.slotQ with
    | none => (s, [])
    | some q => (⟨none, s.inFlight - 1⟩, q.map (fun c => (c, res)))

/-- Folds a sequence of `getSlots` events from the initial state (no queue,
no refresh running). -/
def gRun {α ρ : Type} (cfg : SlotConfig) (events : List (GEvent α ρ)) : GState α :=
  events.foldl (fun s e => (getSlotsStep cfg s e).1) ⟨none, 0⟩

/-- The connection pool `self.connections`: entry `(name, true)` is a live
client keyed by its `host:port` name, `(name, false)` a tombstoned (null)
entry.  Client objects themselves are elided; only liveness matters to the
claims. -/
abbrev Pool := List (String × Bool)

/-- First-match lookup in the pool. -/
def poolLookup : Pool → String → Option Bool
  | [], _ => none
  | (m, b) :: rest, n => if m = n then some b else poolLookup rest n

/-- Overwrites the first entry named `n` (or appends one). -/
def poolSet : Pool → String → Bool → Pool
  | [], n, b => [(n, b)]
  | (m, c) :: rest, n, b =>
    if m = n then (n, b) :: rest else (m, c) :: poolSet rest n b

/-- Models `getClient` (redisClustr.js lines 42-96) at pool granularity:
a live entry for the name is returned as-is, otherwise a fresh live client
is created and stored (a tombstoned entry is replaced). -/
def getClientM (p : Pool) (name : String) : Pool :=
  if poolLookup p name = some true then p else poolSet p name true

/-- One range of the cluster slot-enumeration reply: start slot, end slot,
and the node list (master first), each node a `(host, port)` pair as in the
two-element client arrays the source joins with a colon. -/
structure SlotRange where
  startSlot : Nat
  endSlot : Nat
  nodes : List (String × Nat)

/-- Models `c.join(':')` (redisClustr.js line 170) for a `(host, port)`
node entry, which is also the pool key used by `getClient`. -/
def nodeName (c : String × Nat) : String := c.1 ++ ":" ++ toString c.2

/-- Models the `seenClients` accumulation of redisClustr.js lines 160-172:
every node of every range of the reply, in order. -/
def seenOf (reply : List SlotRange) : List String :=
  (reply.map (fun s => s.nodes.map nodeName)).flatten

/-- Models one iteration of the pruning loop of redisClustr.js lines
180-186 on a single entry: a live entry whose name was not seen is
tombstoned, anything else is kept. -/
def pruneEntry (seen : List String) (e : String × Bool) : String × Bool :=
  if e.2 = true ∧ e.1 ∉ seen then (e.1, false) else e

/-- The pool after the pruning loop. -/
def prunedPool (p1 : Pool) (seen : List String) : Pool := p1.map (pruneEntry seen)

/-- The names sent `quit()` by the pruning loop (redisClustr.js line 183):
exactly the live entries not seen in the reply. -/
def quitsSent (p1 : Pool) (seen : List String) : List String :=
  (p1.filter (fun e => decide (e.2 = true ∧ e.1 ∉ seen))).map Prod.fst

/-- The pool after the client-creation phase of a successful refresh
(redisClustr.js lines 163-177): `getClient` is invoked once per node entry
of the reply, in reply order. -/
def refreshedPool (p : Pool) (reply : List SlotRange) : Pool :=
  (seenOf reply).foldl getClientM p

/-- Models the whole success branch of `getSlots` at pool granularity
(redisClustr.js lines 160-188): create/reuse a client per node of the
reply, then quit and tombstone every live entry absent from the reply.
Returns the resulting pool and the list of endpoints sent quit. -/
def applySlotsReply (p : Pool) (reply : List SlotRange) : Pool × List String :=
  (prunedPool (refreshedPool p reply) (seenOf reply),
   quitsSent (refreshedPool p reply) (seenOf reply))

/-- A JavaScript argument value as far as `doCommand` inspects one. -/
inductive JSVal where
  | vStr (s : List Char)
  | vNum (n : Int)
  | vFn
  | vUndef
  deriving DecidableEq

/-- JavaScript falsiness of an argument value: the empty string and the
number 0 are falsy, as is a missing (undefined) argument. -/
def jsFalsy : JSVal → Bool
  | .vStr s => s.isEmpty
  | .vNum n => n == 0
  | .vFn => false
  | .vUndef => true

/-- Models the head of `tryClient` inside `getSlots` (redisClustr.js lines
140-151): a quitting cluster fails the refresh with `cluster is quitting`;
with no ready connection available it fails with
`couldn\x27t get slot allocation`; otherwise the slot enumeration is sent on
the chosen connection. -/
def tryClientCheck (quitting : Bool) (conn : Option String) :
    Except (List Char) String :=
  if quitting then .error "cluster is quitting".data
  else
    match conn with
    | none => .error "couldn\x27t get slot allocation".data
    | some c => .ok c

/-- Resolution of one `doCommand` submission: the callback fails with an
error text, or a refresh is started (slot map empty) on the given
connection with the command re-entered on its success, or the command is
dispatched to the given client. -/
inductive DoCmdResult where
  | failed (err : List Char)
  | refreshing (conn : String)
  | dispatched (client : String)
  deriving DecidableEq

/-- Models `doCommand` (redisClustr.js lines 258-291).  `quitting` is
`self.quitting`, `slotsEmpty` is `!self.slots.length`, and `selected`
stands for the environment-dependent choices: the connection `getSlots`
would enumerate on when the slot map is empty, or the client
`selectClient` returns otherwise (`none` when unavailable).  The key is
`args[0]`; a falsy key fails immediately; an empty slot map routes through
`getSlots` (whose `tryClient` fails a quitting cluster); otherwise the
command is dispatched to the selected client.  No `quitting` check exists
on the dispatch path. -/
def doCommandModel (quitting slotsEmpty : Bool) (selected : Option String)
    (cmd : List Char) (args : List JSVal) : DoCmdResult :=
  let key := args.headD .vUndef
  if jsFalsy key then .failed ("no key for command: ".data ++ cmd)
  else if slotsEmpty then
    match tryClientCheck quitting selected with
    | .error e => .failed e
    | .ok c => .refreshing c
  else
    match selected with
    | none => .failed "couldn\x27t get client".data
    | some c => .dispatched c

/-- Models the loop of `quit` (redisClustr.js line 389,
`for (var i in self.connections) self.connections[i].quit(quitCb)`),
threading the completion counter `todo` initialised to the number of pool
entries (line 377, tombstones included).  A live entry is sent quit and its
(eventual) `quitCb` invocation decrements `todo`; a tombstoned (null) entry
makes the loop dereference null, modelled as `Except.error ()` (the thrown
TypeError).  On normal termination, returns the endpoints quit and the
final counter (`cb` fires exactly when it reaches 0). -/
def quitIter (todo : Nat) : List (String × Bool) → Except Unit (List String × Nat)
  | [] => .ok ([], todo)
  | (n, true) :: rest =>
    match quitIter (todo - 1) rest with
    | .ok (l, t) => .ok (n :: l, t)
    | .error e => .error e
  | (_, false) :: _ => .error ()

/-- Models `quit(cb)` (redisClustr.js lines 375-390) at pool granularity:
`todo = Object.keys(self.connections).length` counts every entry, then
every entry is sent `.quit()` unconditionally. -/
def quitModel (conns : List (String × Bool)) : Except Unit (List String × Nat) :=
  quitIter conns.length conns

/-! Helper lemmas about the embedded string primitives. -/

theorem jsSplit_ne_nil (sep : Char) : ∀ l : List Char, jsSplit sep l ≠ []
  | [] => by simp [jsSplit]
  | c :: cs => by
    rcases h : jsSplit sep cs with _ | ⟨r, rs⟩
    · exact absurd h (jsSplit_ne_nil sep cs)
    · by_cases hc : c = sep <;> simp [jsSplit, h, hc]

theorem jsSplit_not_mem (sep : Char) : ∀ xs : List Char, sep ∉ xs → jsSplit sep xs = [xs]
  | [], _ => rfl
  | x :: xs, h => by
    have hx : x ≠ sep := by rintro rfl; exact h (List.mem_cons_self x xs)
    have ih := jsSplit_not_mem sep xs (fun hm => h (List.mem_cons_of_mem _ hm))
    simp [jsSplit, ih, hx]

theorem jsSplit_append (sep : Char) : ∀ xs ys : List Char, sep ∉ xs →
    jsSplit sep (xs ++ sep :: ys) = xs :: jsSplit sep ys
  | [], ys, _ => by
    rcases h : jsSplit sep ys with _ | ⟨r, rs⟩
    · exact absurd h (jsSplit_ne_nil sep ys)
    · simp [jsSplit, h]
  | x :: xs, ys, h => by
    have hx : x ≠ sep := by rintro rfl; exact h (List.mem_cons_self x xs)
    have ih := jsSplit_append sep xs ys (fun hm => h (List.mem_cons_of_mem _ hm))
    simp [jsSplit, ih, hx]

theorem jsIndexOf_not_mem (c : Char) : ∀ l : List Char, c ∉ l → jsIndexOf c l = -1
  | [], _ => rfl
  | x :: xs, h => by
    have hx : x ≠ c := by rintro rfl; exact h (List.mem_cons_self x xs)
    have ih := jsIndexOf_not_mem c xs (fun hm => h (List.mem_cons_of_mem _ hm))
    simp [jsIndexOf, hx, ih]

theorem jsIndexOf_append (c : Char) : ∀ A B : List Char, c ∉ A →
    jsIndexOf c (A ++ c :: B) = (A.length : Int)
  | [], B, _ => by simp [jsIndexOf]
  | a :: A, B, h => by
    have ha : a ≠ c := by rintro rfl; exact h (List.mem_cons_self a A)
    have ih := jsIndexOf_append c A B (fun hm => h (List.mem_cons_of_mem _ hm))
    simp only [List.cons_append, jsIndexOf, if_neg ha, List.append_eq]
    rw [ih, if_neg (by omega : ¬((A.length : Int) = -1))]
    simp only [List.length_cons]
    push_cast
    ring

theorem drop_after (c : Char) (A X : List Char) :
    (A ++ c :: X).drop ((A.length : Int) + 1).toNat = X := by
  rw [show ((A.length : Int) + 1).toNat = A.length + 1 by omega,
      show A ++ c :: X = (A ++ [c]) ++ X by simp,
      show A.length + 1 = (A ++ [c]).length by simp]
  exact List.drop_left _ _

/-! Helper lemmas about the redirect and retry machinery. -/

theorem movedAskAction_moved (rest : List Char) :
    movedAskAction ("MOVED".data ++ ' ' :: rest)
      = some ⟨true, false, (redirectTarget ("MOVED".data ++ ' ' :: rest)).1,
              (redirectTarget ("MOVED".data ++ ' ' :: rest)).2⟩ := by
  have h4 : ¬(("MOVED".data ++ ' ' :: rest).take 4 = "ASK ".data) := fun hc => by
    have h : (['M', 'O', 'V', 'E'] : List Char) = "ASK ".data := hc
    exact absurd h (by decide)
  have h6 : ("MOVED".data ++ ' ' :: rest).take 6 = "MOVED ".data := rfl
  unfold movedAskAction
  rw [if_neg h4, if_pos h6]

theorem movedAskAction_ask (rest : List Char) :
    movedAskAction ("ASK".data ++ ' ' :: rest)
      = some ⟨false, true, (redirectTarget ("ASK".data ++ ' ' :: rest)).1,
              (redirectTarget ("ASK".data ++ ' ' :: rest)).2⟩ := by
  have h4 : ("ASK".data ++ ' ' :: rest).take 4 = "ASK ".data := rfl
  unfold movedAskAction
  rw [if_pos h4]

theorem redirectTarget_parse (pre slotS host port : List Char)
    (hpre : ' ' ∉ pre) (hs : ' ' ∉ slotS) (hh1 : ' ' ∉ host) (hh2 : ':' ∉ host)
    (hp1 : ' ' ∉ port) (hp2 : ':' ∉ port) :
    redirectTarget (pre ++ ' ' :: (slotS ++ ' ' :: (host ++ ':' :: port))) = (host, port) := by
  have haddr : ' ' ∉ host ++ ':' :: port := by
    intro hm
    rcases List.mem_append.mp hm with hm | hm
    · exact hh1 hm
    · rcases List.mem_cons.mp hm with hm | hm
      · exact absurd hm (by decide)
      · exact hp1 hm
  have hsplit : jsSplit ' ' (pre ++ ' ' :: (slotS ++ ' ' :: (host ++ ':' :: port)))
      = [pre, slotS, host ++ ':' :: port] := by
    rw [jsSplit_append ' ' pre _ hpre, jsSplit_append ' ' slotS _ hs,
        jsSplit_not_mem ' ' _ haddr]
  have haddrsplit : jsSplit ':' (host ++ ':' :: port) = [host, port] := by
    rw [jsSplit_append ':' host port hh2, jsSplit_not_mem ':' port hp2]
  simp only [redirectTarget]
  rw [hsplit]
  show ((jsSplit ':' (host ++ ':' :: port)).getD 0 [],
        (jsSplit ':' (host ++ ':' :: port)).getD 1 []) = (host, port)
  rw [haddrsplit]
  rfl

theorem movedAskAction_eq_none_of_tryagain {msg : List Char}
    (h8 : msg.take 8 = "TRYAGAIN".data) : movedAskAction msg = none := by
  have h4 : msg.take 4 = "TRYA".data := by
    have h := congrArg (List.take 4) h8
    rw [List.take_take] at h
    rw [show min 4 8 = 4 by norm_num] at h
    exact h.trans (rfl : ("TRYAGAIN".data).take 4 = "TRYA".data)
  have h6 : msg.take 6 = "TRYAGA".data := by
    have h := congrArg (List.take 6) h8
    rw [List.take_take] at h
    rw [show min 6 8 = 6 by norm_num] at h
    exact h.trans (rfl : ("TRYAGAIN".data).take 6 = "TRYAGA".data)
  unfold movedAskAction
  rw [if_neg (by rw [h4]; decide), if_neg (by rw [h6]; decide)]

theorem classifyStep_reissue {retries : Nat} {r : Reply} {d : Option Nat} {retries2 : Nat}
    (h : classifyStep retries r = (.reissue d, retries2)) :
    retries ≠ 0 ∧ retries2 = retries - 1 := by
  cases r with
  | ok => simp [classifyStep] at h
  | err msg code =>
    by_cases hc : msg ≠ [] ∧ retries ≠ 0
    · rcases hm : movedAskAction msg with _ | a
      · by_cases ht : msg.take 8 = "TRYAGAIN".data ∨ code = some "CLUSTERDOWN".data
        · simp [classifyStep, hc, hm, ht] at h
          exact ⟨hc.2, h.2.symm⟩
        · simp [classifyStep, hc, hm, ht] at h
      · simp [classifyStep, hc, hm] at h
        exact ⟨hc.2, h.2.symm⟩
    · simp [classifyStep, hc] at h

theorem runReplies_le : ∀ (replies : List Reply) (retries : Nat),
    (runReplies retries replies).1 ≤ retries
  | [], _ => by simp [runReplies]
  | r :: rest, retries => by
    rcases h : classifyStep retries r with ⟨a, r2⟩
    cases a with
    | surface => simp [runReplies, h]
    | reissue d =>
      have hh := classifyStep_reissue h
      have ih := runReplies_le rest r2
      simp [runReplies, h]
      omega

/-! Helper lemmas about the pool and the refresh coalescing. -/

theorem poolSet_mem {n : String} {c : Bool} :
    ∀ (p : Pool) (m : String) (b : Bool), n ≠ m → (n, c) ∈ p → (n, c) ∈ poolSet p m b
  | [], _, _, _, h => absurd h (List.not_mem_nil _)
  | (k, d) :: rest, m, b, hne, h => by
    by_cases hkm : k = m
    · subst hkm
      simp only [poolSet, if_pos rfl]
      rcases List.mem_cons.mp h with h | h
      · exact absurd (congrArg Prod.fst h) hne
      · exact List.mem_cons_of_mem _ h
    · simp only [poolSet, if_neg hkm]
      rcases List.mem_cons.mp h with h | h
      · exact List.mem_cons.mpr (Or.inl h)
      · exact List.mem_cons_of_mem _ (poolSet_mem rest m b hne h)

theorem getClientM_mem {n : String} {p : Pool} (m : String) (hne : n ≠ m)
    (h : (n, true) ∈ p) : (n, true) ∈ getClientM p m := by
  unfold getClientM
  split
  · exact h
  · exact poolSet_mem p m true hne h

theorem foldl_getClientM_mem {n : String} :
    ∀ (names : List String) (p : Pool), (n, true) ∈ p → n ∉ names →
      (n, true) ∈ names.foldl getClientM p
  | [], _, h, _ => h
  | m :: names, p, h, hnm => by
    have h1 : n ≠ m := by rintro rfl; exact hnm (List.mem_cons_self n names)
    have h2 : n ∉ names := fun e => hnm (List.mem_cons_of_mem _ e)
    exact foldl_getClientM_mem names (getClientM p m) (getClientM_mem m h1 h) h2

theorem getSlotsStep_inv {α ρ : Type} (cfg : SlotConfig) (s : GState α) (e : GEvent α ρ)
    (h : s.inFlight = if s.slotQ.isSome then 1 else 0) :
    (getSlotsStep cfg s e).1.inFlight
      = if (getSlotsStep cfg s e).1.slotQ.isSome then 1 else 0 := by
  cases e with
  | request cb =>
    rcases hq : s.slotQ with _ | q <;> simp [getSlotsStep, hq] at h ⊢ <;> omega
  | complete res =>
    rcases hq : s.slotQ with _ | q <;> simp [getSlotsStep, hq] at h ⊢ <;> omega

theorem foldl_getSlotsStep_inv {α ρ : Type} (cfg : SlotConfig) :
    ∀ (events : List (GEvent α ρ)) (s : GState α),
      s.inFlight = (if s.slotQ.isSome then 1 else 0) →
      (events.foldl (fun s e => (getSlotsStep cfg s e).1) s).inFlight
        = if (events.foldl (fun s e => (getSlotsStep cfg s e).1) s).slotQ.isSome then 1 else 0
  | [], _, h => h
  | e :: events, s, h => by
    simp only [List.foldl_cons]
    exact foldl_getSlotsStep_inv cfg events _ (getSlotsStep_inv cfg s e h)

theorem quitIter_error {n : String} :
    ∀ (conns : List (String × Bool)) (todo : Nat), (n, false) ∈ conns →
      quitIter todo conns = .error ()
  | [], _, h => absurd h (List.not_mem_nil _)
  | (m, true) :: rest, todo, h => by
    have h2 : (n, false) ∈ rest := by
      rcases List.mem_cons.mp h with h | h
      · have hf : false = true := congrArg Prod.snd h
        exact absurd hf (by decide)
      · exact h
    simp [quitIter, quitIter_error rest (todo - 1) h2]
  | (m, false) :: rest, _, _ => rfl

/-! Theorems settling the claims. -/

/-- Claim C1 (amended): across the initial dispatch and all MOVED/ASK
redirects and TRYAGAIN/CLUSTERDOWN retries, the underlying single-node
client is invoked at most 17 times (the one initial dispatch plus at most
16 re-issues, since `var retries = 16` post-decrements on each error
reply); once the budget is exhausted every further reply is surfaced to
the caller unchanged. -/
theorem command_invocation_budget (replies : List Reply) (msg : List Char)
    (code : Option (List Char)) :
    invocations replies ≤ 17 ∧ classifyStep 0 (.err msg code) = (.surface, 0) := by
  constructor
  · have h := runReplies_le replies 16
    unfold invocations
    omega
  · simp [classifyStep]

/-- Claim C1 counterexample: a command answered by sixteen consecutive MOVED
redirects drives seventeen invocations of the underlying client, so the
claimed bound of 16 is exceeded. -/
theorem command_seventeen_invocations :
    invocations (List.replicate 16 (Reply.err "MOVED 1 10.0.0.1:7000".data none)) = 17
    ∧ ¬invocations (List.replicate 16 (Reply.err "MOVED 1 10.0.0.1:7000".data none)) ≤ 16 := by
  decide

/-- Claim C2 (amended): on a TRYAGAIN reply (or a CLUSTERDOWN-coded error
that is not a redirect) with attempts remaining, the command is re-issued
after a delay of `10ms * 2 ^ (16 - max(attemptsRemaining, 9))` where
`attemptsRemaining` is the post-decrement budget; the delay never exceeds
1280ms, and the first such retry of a fresh command (budget 16, hence
attemptsRemaining 15) sleeps 20ms. -/
theorem tryagain_clusterdown_backoff (r : Nat) (msg : List Char)
    (code : Option (List Char)) (hr : r ≠ 0) (hne : msg ≠ [])
    (hcls : msg.take 8 = "TRYAGAIN".data
      ∨ (movedAskAction msg = none ∧ code = some "CLUSTERDOWN".data)) :
    classifyStep r (.err msg code) = (.reissue (some (backoffDelay (r - 1))), r - 1)
    ∧ backoffDelay (r - 1) = 10 * 2 ^ (16 - max (r - 1) 9)
    ∧ backoffDelay (r - 1) ≤ 1280
    ∧ backoffDelay 15 = 20 := by
  have hma : movedAskAction msg = none := by
    rcases hcls with h8 | ⟨hm, _⟩
    · exact movedAskAction_eq_none_of_tryagain h8
    · exact hm
  have hif : msg.take 8 = "TRYAGAIN".data ∨ code = some "CLUSTERDOWN".data := by
    rcases hcls with h8 | ⟨_, hc⟩
    · exact Or.inl h8
    · exact Or.inr hc
  refine ⟨?_, by unfold backoffDelay; ring, ?_, by decide⟩
  · simp only [classifyStep]
    rw [if_pos ⟨hne, hr⟩]
    simp only [hma]
    rw [if_pos hif]
  · unfold backoffDelay
    have h9 : 9 ≤ max (r - 1) 9 := le_max_right _ _
    calc 2 ^ (16 - max (r - 1) 9) * 10 ≤ 2 ^ 7 * 10 :=
          Nat.mul_le_mul_right _ (Nat.pow_le_pow_right (by norm_num) (by omega))
      _ = 1280 := by norm_num

/-- Claim C2 witness: a fresh command (budget 16) receiving a TRYAGAIN
reply is re-issued after the computed backoff. -/
theorem tryagain_clusterdown_backoff_witness :
    classifyStep 16 (Reply.err "TRYAGAIN - key unavailable".data none)
        = (.reissue (some (backoffDelay 15)), 15)
    ∧ backoffDelay 15 = 10 * 2 ^ (16 - max 15 9)
    ∧ backoffDelay 15 ≤ 1280
    ∧ backoffDelay 15 = 20 :=
  tryagain_clusterdown_backoff 16 "TRYAGAIN - key unavailable".data none
    (by decide) (by decide) (Or.inl (by decide))

/-- Claim C2 counterexample: the first TRYAGAIN retry of a fresh command
sleeps 20ms, not approximately 80ms as claimed. -/
theorem tryagain_first_backoff_not_eighty :
    classifyStep 16 (Reply.err "TRYAGAIN multiple keys".data none)
        = (.reissue (some 20), 15)
    ∧ (20 : Nat) ≠ 80 := by
  decide

/-- Claim C3: an error reply starting with MOVED triggers a
fire-and-forget slot-map refresh and re-issues the command to the pool
client for the host:port parsed from the third token; one starting with ASK
leaves the slot map alone and sends the single-shot asking directive to
that client before the re-issued command. -/
theorem moved_ask_redirect (slotS host port : List Char)
    (hs : ' ' ∉ slotS) (hh1 : ' ' ∉ host) (hh2 : ':' ∉ host)
    (hp1 : ' ' ∉ port) (hp2 : ':' ∉ port) :
    movedAskAction ("MOVED".data ++ ' ' :: (slotS ++ ' ' :: (host ++ ':' :: port)))
        = some ⟨true, false, host, port⟩
    ∧ movedAskAction ("ASK".data ++ ' ' :: (slotS ++ ' ' :: (host ++ ':' :: port)))
        = some ⟨false, true, host, port⟩ := by
  have hM := redirectTarget_parse "MOVED".data slotS host port (by decide) hs hh1 hh2 hp1 hp2
  have hA := redirectTarget_parse "ASK".data slotS host port (by decide) hs hh1 hh2 hp1 hp2
  constructor
  · rw [movedAskAction_moved, hM]
  · rw [movedAskAction_ask, hA]

/-- Claim C3 witness: concrete MOVED and ASK replies. -/
theorem moved_ask_redirect_witness :
    movedAskAction ("MOVED".data ++ ' ' :: ("5000".data ++ ' ' :: ("10.0.0.1".data ++ ':' :: "7001".data)))
        = some ⟨true, false, "10.0.0.1".data, "7001".data⟩
    ∧ movedAskAction ("ASK".data ++ ' ' :: ("5000".data ++ ' ' :: ("10.0.0.1".data ++ ':' :: "7001".data)))
        = some ⟨false, true, "10.0.0.1".data, "7001".data⟩ :=
  moved_ask_redirect "5000".data "10.0.0.1".data "7001".data
    (by decide) (by decide) (by decide) (by decide) (by decide)

/-- Claim C4: a key containing an opening brace followed by a later closing
brace with at least one character between them is routed on the CRC16-XMODEM
hash (mod 16384) of the substring between the first opening brace and the
first subsequent closing brace, so a key with hash-tag T gets the slot of T;
a key whose first opening brace has no subsequent closing brace, or whose
tag is empty, is hashed whole.  Here `A` is the brace-free part before the
first opening brace, `B` the tag and `C` the remainder. -/
theorem selectClient_hash_tag (A B C : List Char)
    (hA : '\x7b' ∉ A) (hB : '\x7d' ∉ B) (hBne : B ≠ []) (hBopen : '\x7b' ∉ B) :
    keySlot (A ++ '\x7b' :: (B ++ '\x7d' :: C)) = crc16 B % 16384
    ∧ keySlot (A ++ '\x7b' :: (B ++ '\x7d' :: C)) = keySlot B
    ∧ keySlot (A ++ '\x7b' :: B) = crc16 (A ++ '\x7b' :: B) % 16384
    ∧ keySlot (A ++ '\x7b' :: '\x7d' :: C) = crc16 (A ++ '\x7b' :: '\x7d' :: C) % 16384 := by
  have hlen : ¬((A.length : Int) = -1) := by omega
  have key1 : hashTagKey (A ++ '\x7b' :: (B ++ '\x7d' :: C)) = B := by
    simp only [hashTagKey]
    rw [jsIndexOf_append '\x7b' A _ hA, if_neg hlen, drop_after '\x7b' A _,
        jsIndexOf_append '\x7d' B C hB]
    have hpos : (0 : Int) < (B.length : Int) := by
      have := List.length_pos.mpr hBne
      omega
    rw [if_pos hpos, show ((B.length : Int)).toNat = B.length by omega]
    rw [show B ++ '\x7d' :: C = B ++ ('\x7d' :: C) from rfl]
    exact List.take_left _ _
  have key2 : hashTagKey B = B := by
    simp only [hashTagKey]
    rw [jsIndexOf_not_mem '\x7b' B hBopen, if_pos rfl]
  have key3 : hashTagKey (A ++ '\x7b' :: B) = A ++ '\x7b' :: B := by
    simp only [hashTagKey]
    rw [jsIndexOf_append '\x7b' A _ hA, if_neg hlen, drop_after '\x7b' A _,
        jsIndexOf_not_mem '\x7d' B hB]
    rw [if_neg (by decide : ¬((0 : Int) < -1))]
  have key4 : hashTagKey (A ++ '\x7b' :: '\x7d' :: C) = A ++ '\x7b' :: '\x7d' :: C := by
    simp only [hashTagKey]
    rw [jsIndexOf_append '\x7b' A _ hA, if_neg hlen, drop_after '\x7b' A _]
    rw [show jsIndexOf '\x7d' ('\x7d' :: C) = 0 by simp [jsIndexOf]]
    rw [if_neg (by decide : ¬((0 : Int) < 0))]
  refine ⟨?_, ?_, ?_, ?_⟩
  · unfold keySlot
    rw [key1]
  · unfold keySlot
    rw [key1, key2]
  · unfold keySlot
    rw [key3]
  · unfold keySlot
    rw [key4]

/-- Claim C4 witness: the tag of a concrete hash-tagged key routes the key
to the slot of the tag alone. -/
theorem selectClient_hash_tag_witness :
    keySlot ([] ++ '\x7b' :: ("user1000".data ++ '\x7d' :: ".following".data))
        = crc16 "user1000".data % 16384
    ∧ keySlot ([] ++ '\x7b' :: ("user1000".data ++ '\x7d' :: ".following".data))
        = keySlot "user1000".data
    ∧ keySlot ([] ++ '\x7b' :: "user1000".data)
        = crc16 ([] ++ '\x7b' :: "user1000".data) % 16384
    ∧ keySlot ([] ++ '\x7b' :: '\x7d' :: ".following".data)
        = crc16 ([] ++ '\x7b' :: '\x7d' :: ".following".data) % 16384 :=
  selectClient_hash_tag [] "user1000".data ".following".data
    (by decide) (by decide) (by decide) (by decide)

/-- Claim C5 (amended): the pending-refresh queue bound applies only when
`maxQueueLength` is configured nonzero; then, on a push finding the queue
length equal to the bound, `queueShift` unset or true evicts the eldest
queued callback with the error `max slot queue length reached` and enqueues
the newcomer, while `queueShift = false` hands that error to the newcomer
and does not enqueue it.  Without the configuration the queue is unbounded
(16 is only the deque's initial capacity hint). -/
theorem slot_queue_overflow {α : Type} (cfg : SlotConfig) (e cb : α) (rest : List α)
    (hset : cfg.maxQueueLength ≠ 0) (hfull : cfg.maxQueueLength = (e :: rest).length) :
    (cfg.queueShift ≠ some false →
      slotQueuePush cfg (e :: rest) cb = (rest ++ [cb], .evicted e maxSlotQueueErr))
    ∧ (cfg.queueShift = some false →
      slotQueuePush cfg (e :: rest) cb = (e :: rest, .rejected maxSlotQueueErr)) := by
  constructor
  · intro hq
    unfold slotQueuePush
    rw [if_pos ⟨hset, hfull⟩, if_pos hq]
    rfl
  · intro hq
    unfold slotQueuePush
    rw [if_pos ⟨hset, hfull⟩, if_neg (by simp [hq])]

/-- Claim C5 witness: both overflow policies at a configured bound of 2. -/
theorem slot_queue_overflow_witness :
    (slotQueuePush (α := Nat) ⟨2, none⟩ [5, 6] 7 = ([6, 7], .evicted 5 maxSlotQueueErr))
    ∧ (slotQueuePush (α := Nat) ⟨2, some false⟩ [5, 6] 7
        = ([5, 6], .rejected maxSlotQueueErr)) :=
  ⟨(slot_queue_overflow ⟨2, none⟩ 5 7 [6] (by decide) (by decide)).1 (by decide),
   (slot_queue_overflow ⟨2, some false⟩ 5 7 [6] (by decide) (by decide)).2 rfl⟩

/-- Claim C5 counterexample: with `maxQueueLength` unconfigured (the
claimed default of 16 in effect per the claim), a sixteen-deep queue does
not evict anyone: the newcomer is simply enqueued, growing the queue to
17. -/
theorem slot_queue_unbounded_without_config :
    slotQueuePush (α := Nat) ⟨0, none⟩ (List.range 16) 99 = (List.range 16 ++ [99], .pushed)
    ∧ (slotQueuePush (α := Nat) ⟨0, none⟩ (List.range 16) 99).1.length = 17 := by
  decide

/-- Claim C6 (amended): a command submitted after quit() fails only when
the slot map is empty, in which case its callback receives the
`cluster is quitting` error from the refresh path; with a populated slot
map the command is dispatched to the selected node client despite
quitting. -/
theorem doCommand_while_quitting (selected : Option String) (c : String)
    (cmd : List Char) (args : List JSVal)
    (hkey : jsFalsy (args.headD .vUndef) = false) :
    doCommandModel true true selected cmd args = .failed "cluster is quitting".data
    ∧ doCommandModel true false (some c) cmd args = .dispatched c := by
  have hkey2 : jsFalsy (args.head?.getD JSVal.vUndef) = false := by
    rw [← List.headD_eq_head?]
    exact hkey
  constructor
  · simp [doCommandModel, hkey2, tryClientCheck]
  · simp [doCommandModel, hkey2]

/-- Claim C6 witness: a concrete command after quit, on an empty and on a
populated slot map. -/
theorem doCommand_while_quitting_witness :
    doCommandModel true true (some "10.0.0.1:7000") "get".data [JSVal.vStr ['k']]
        = .failed "cluster is quitting".data
    ∧ doCommandModel true false (some "10.0.0.1:7000") "get".data [JSVal.vStr ['k']]
        = .dispatched "10.0.0.1:7000" :=
  doCommand_while_quitting (some "10.0.0.1:7000") "10.0.0.1:7000" "get".data
    [JSVal.vStr ['k']] (by decide)

/-- Claim C6 counterexample: with the slot map populated, a command
submitted after quit() is dispatched to a node client rather than failing. -/
theorem doCommand_after_quit_dispatches :
    doCommandModel true false (some "10.0.0.1:7000") "get".data [JSVal.vStr ['k'], JSVal.vFn]
      = .dispatched "10.0.0.1:7000" := by
  decide

/-- Claim C7: over any event sequence from the initial state, at most one
slot refresh is in flight (a request arriving while one runs only enqueues
its callback), and a completing refresh delivers its one result to every
queued callback and discards the queue. -/
theorem getSlots_coalesces {α ρ : Type} (cfg : SlotConfig)
    (events : List (GEvent α ρ)) (q : List α) (res : ρ) :
    (gRun cfg events).inFlight ≤ 1
    ∧ getSlotsStep cfg ⟨some q, 1⟩ (.complete res)
        = (⟨none, 0⟩, q.map (fun c => (c, res))) := by
  constructor
  · have h := foldl_getSlotsStep_inv (ρ := ρ) cfg events ⟨none, 0⟩ (by simp)
    unfold gRun
    rw [h]
    split <;> omega
  · rfl

/-- Claim C8: after the success branch of a refresh, every live pool entry
names an endpoint of the reply, and every previously live endpoint absent
from the reply has been sent quit and tombstoned. -/
theorem refresh_prunes_unseen (p : Pool) (reply : List SlotRange) :
    (∀ e ∈ (applySlotsReply p reply).1, e.2 = true → e.1 ∈ seenOf reply)
    ∧ (∀ n : String, (n, true) ∈ p → n ∉ seenOf reply →
        n ∈ (applySlotsReply p reply).2 ∧ (n, false) ∈ (applySlotsReply p reply).1) := by
  constructor
  · intro e he htrue
    have he2 : e ∈ prunedPool (refreshedPool p reply) (seenOf reply) := he
    rcases List.mem_map.mp he2 with ⟨a, ha, hfa⟩
    by_cases hcond : a.2 = true ∧ a.1 ∉ seenOf reply
    · rw [pruneEntry, if_pos hcond] at hfa
      rw [← hfa] at htrue
      simp at htrue
    · rw [pruneEntry, if_neg hcond] at hfa
      subst hfa
      push_neg at hcond
      exact hcond htrue
  · intro n hn hns
    have h1 : (n, true) ∈ refreshedPool p reply :=
      foldl_getClientM_mem (seenOf reply) p hn hns
    constructor
    · apply List.mem_map.mpr
      refine ⟨(n, true), ?_, rfl⟩
      apply List.mem_filter.mpr
      refine ⟨h1, ?_⟩
      rw [decide_eq_true_eq]
      exact ⟨rfl, hns⟩
    · apply List.mem_map.mpr
      refine ⟨(n, true), h1, ?_⟩
      rw [pruneEntry, if_pos ⟨rfl, hns⟩]

/-- Claim C8 witness: a pool of two live endpoints refreshed by a reply
naming only one of them quits and tombstones the other. -/
theorem refresh_prunes_unseen_witness :
    "10.0.0.2:7001" ∈ (applySlotsReply [("10.0.0.1:7000", true), ("10.0.0.2:7001", true)]
        [⟨0, 16383, [("10.0.0.1", 7000)]⟩]).2
    ∧ ("10.0.0.2:7001", false) ∈ (applySlotsReply
        [("10.0.0.1:7000", true), ("10.0.0.2:7001", true)]
        [⟨0, 16383, [("10.0.0.1", 7000)]⟩]).1 :=
  (refresh_prunes_unseen [("10.0.0.1:7000", true), ("10.0.0.2:7001", true)]
      [⟨0, 16383, [("10.0.0.1", 7000)]⟩]).2
    "10.0.0.2:7001" (by decide) (by decide)

/-- Claim C9: a command whose first argument is the empty string, the
number 0, or missing altogether fails immediately with
`no key for command: <cmd>`, identically in all three cases, regardless of
cluster state. -/
theorem doCommand_falsy_key (quitting slotsEmpty : Bool) (selected : Option String)
    (cmd : List Char) (rest : List JSVal) :
    doCommandModel quitting slotsEmpty selected cmd (JSVal.vStr [] :: rest)
        = .failed ("no key for command: ".data ++ cmd)
    ∧ doCommandModel quitting slotsEmpty selected cmd (JSVal.vNum 0 :: rest)
        = .failed ("no key for command: ".data ++ cmd)
    ∧ doCommandModel quitting slotsEmpty selected cmd []
        = .failed ("no key for command: ".data ++ cmd) := by
  refine ⟨?_, ?_, ?_⟩ <;> simp [doCommandModel, jsFalsy]

/-- Claim C10: quit() counts every pool entry toward its completion counter
and calls quit on each unconditionally, so a pool holding any tombstoned
(null) entry makes quit dereference null and throw instead of ever invoking
the completion callback. -/
theorem quit_null_dereference (conns : List (String × Bool)) (n : String)
    (h : (n, false) ∈ conns) :
    quitModel conns = .error () :=
  quitIter_error conns conns.length h

/-- Claim C10 witness: a pool with one live and one tombstoned entry makes
quit throw. -/
theorem quit_null_dereference_witness :
    quitModel [("10.0.0.1:7000", true), ("10.0.0.2:7001", false)] = .error () :=
  quit_null_dereference [("10.0.0.1:7000", true), ("10.0.0.2:7001", false)]
    "10.0.0.2:7001" (by decide)

end RedisClustr
